import Mathlib

/-!
Shallow embedding of the FastAPI performance-monitoring service
(app/main.py, app/crud.py, app/models.py, app/schemas.py).

Rows of the user_data table are modelled as a Lean structure, the table as a
List UserData, timestamps as Nat, and the Prometheus metric registry as
explicit state threaded through the translated handler bodies.  Durations
measured with time.time() are abstracted as Nat parameters.
-/

namespace AppSpec

/-- Row of the user_data table (app/models.py): integer primary key, required
name and email, nullable message, server-assigned created_at timestamp
(modelled as Nat). -/
structure UserData where
  id : Nat
  name : String
  email : String
  message : Option String
  created_at : Nat
deriving Repr, DecidableEq

/-- schemas.UserDataCreate (app/schemas.py): request body of POST and PUT.
Pydantic declares message as str or None with default None, so a body that
omits message parses with message = none. -/
structure UserDataCreate where
  name : String
  email : String
  message : Option String
deriving Repr, DecidableEq

/-- The setattr loop of crud.update_user_data: data.dict() has exactly the
keys name, email, message, and each is written onto the row; id and
created_at are not keys of data.dict() and are untouched. -/
def applyUpdate (item : UserData) (data : UserDataCreate) : UserData :=
  { item with name := data.name, email := data.email, message := data.message }

/-- db.query(UserData).filter(UserData.id == item_id).first(). -/
def firstById (store : List UserData) (item_id : Nat) : Option UserData :=
  store.find? (fun it => it.id == item_id)

/-- crud.update_user_data: None when the row is absent; otherwise the row is
rewritten field-by-field, committed, and returned.  The committed store is
the list with the matching row replaced. -/
def update_user_data (store : List UserData) (item_id : Nat)
    (data : UserDataCreate) : Option (UserData × List UserData) :=
  match firstById store item_id with
  | none => none
  | some item =>
      some (applyUpdate item data,
        store.map (fun it => if it.id == item_id then applyUpdate it data else it))

/-- crud.delete_user_data: None when the row is absent; otherwise that row is
deleted (db.delete removes the single matching primary-key row) and
returned. -/
def delete_user_data (store : List UserData) (item_id : Nat) :
    Option (UserData × List UserData) :=
  match firstById store item_id with
  | none => none
  | some item => some (item, store.eraseP (fun it => it.id == item_id))

/-- Outcome of an endpoint in app/main.py: a body with a status code, or an
HTTPException(status, detail). -/
inductive HttpResult (α : Type) where
  | ok (status : Nat) (body : α)
  | err (status : Nat) (detail : String)
deriving Repr, DecidableEq

/-- PUT /data/item_id (update_data in app/main.py): 404 with detail
"Item not found" when crud returns None, else 200 with the updated entity.
Paired with the store after the call. -/
def update_data (store : List UserData) (item_id : Nat) (data : UserDataCreate) :
    HttpResult UserData × List UserData :=
  match update_user_data store item_id data with
  | none => (HttpResult.err 404 "Item not found", store)
  | some (item, store2) => (HttpResult.ok 200 item, store2)

/-- DELETE /data/item_id (delete_data in app/main.py). -/
def delete_data (store : List UserData) (item_id : Nat) :
    HttpResult UserData × List UserData :=
  match delete_user_data store item_id with
  | none => (HttpResult.err 404 "Item not found", store)
  | some (item, store2) => (HttpResult.ok 200 item, store2)

/-- Ordering used by crud.get_user_data: ORDER BY created_at DESC. -/
def createdGe (a b : UserData) : Prop := b.created_at ≤ a.created_at

instance : DecidableRel createdGe := fun a b => Nat.decLe b.created_at a.created_at

instance : IsTotal UserData createdGe :=
  ⟨fun a b => Nat.le_total b.created_at a.created_at⟩

instance : IsTrans UserData createdGe :=
  ⟨fun _ _ _ hab hbc => Nat.le_trans hbc hab⟩

/-- crud.get_user_data: the rows sorted by created_at descending, then
offset(skip) and limit(limit). -/
def get_user_data (store : List UserData) (skip limit : Nat) : List UserData :=
  ((List.insertionSort createdGe store).drop skip).take limit

/-- A labelled metric family, one child per label combination, as
prometheus_client keeps children of a Counter.  labels(...).inc() creates
the child at 0 on first use and adds one to it. -/
def incLabel {L : Type} [DecidableEq L] : List (L × Nat) → L → List (L × Nat)
  | [], l => [(l, 1)]
  | kv :: rest, l =>
      if kv.1 = l then (kv.1, kv.2 + 1) :: rest else kv :: incLabel rest l

/-- labels(...).observe(d) on a Histogram family: appends the observation to
the child series, creating the child on first use. -/
def observeLabel {L : Type} [DecidableEq L] :
    List (L × List Nat) → L → Nat → List (L × List Nat)
  | [], l, d => [(l, [d])]
  | kv :: rest, l, d =>
      if kv.1 = l then (kv.1, kv.2 ++ [d]) :: rest else kv :: observeLabel rest l d

/-- Counter value currently published for a label combination (0 before the
child exists). -/
def countOf {L : Type} [DecidableEq L] : List (L × Nat) → L → Nat
  | [], _ => 0
  | kv :: rest, l => if kv.1 = l then kv.2 else countOf rest l

/-- Observations recorded so far for a label combination. -/
def obsOf {L : Type} [DecidableEq L] : List (L × List Nat) → L → List Nat
  | [], _ => []
  | kv :: rest, l => if kv.1 = l then kv.2 else obsOf rest l

/-- State of the DB metric families of app/main.py: db_queries_total
(Counter, label operation) and db_query_duration_seconds (Histogram, label
operation). -/
structure DbMetrics where
  queries_total : List (String × Nat)
  query_duration : List (String × List Nat)
deriving Repr, DecidableEq

/-- Exception raised by the translated Python code. -/
inductive PyError where
  | indexError
deriving Repr, DecidableEq

instance {ε α : Type} [DecidableEq ε] [DecidableEq α] : DecidableEq (Except ε α) :=
  fun a b =>
    match a, b with
    | Except.error e1, Except.error e2 =>
        if h : e1 = e2 then isTrue (by rw [h]) else isFalse (by intro hc; cases hc; exact h rfl)
    | Except.error _, Except.ok _ => isFalse (by intro hc; cases hc)
    | Except.ok _, Except.error _ => isFalse (by intro hc; cases hc)
    | Except.ok v1, Except.ok v2 =>
        if h : v1 = v2 then isTrue (by rw [h]) else isFalse (by intro hc; cases hc; exact h rfl)

/-- ASCII part of the whitespace set of Python str.split() with no
separator. SQL statements are ASCII text, so the exotic Unicode spaces
Python additionally strips are not modelled. -/
def pyIsSpace (c : Char) : Bool :=
  c = ' ' || c = '\t' || c = '\n' || c = '\r' || c = '\x0b' || c = '\x0c'

/-- Worker for statementTokens: splits at runs of whitespace, accumulating
the current token in reverse. -/
def splitTokens : List Char → List Char → List String
  | [], acc => if acc.isEmpty then [] else [String.mk acc.reverse]
  | c :: cs, acc =>
      if pyIsSpace c then
        if acc.isEmpty then splitTokens cs []
        else String.mk acc.reverse :: splitTokens cs []
      else splitTokens cs (c :: acc)

/-- statement.strip().split() in after_cursor_execute: Python whitespace
split discarding empty tokens (so the leading strip() does not change the
result of split()). -/
def statementTokens (s : String) : List String := splitTokens s.toList []

/-- The tuple ("select", "insert", "update", "delete") tested by the Python
membership op in (...). -/
def dmlOps : List String := ["select", "insert", "update", "delete"]

/-- ASCII case folding of one character, as Python str.lower() acts on the
ASCII range (SQL keywords are ASCII). -/
def pyLowerChar (c : Char) : Char :=
  if 'A' ≤ c && c ≤ 'Z' then Char.ofNat (c.toNat + 32) else c

/-- Python str.lower() restricted to ASCII text. -/
def pyLower (s : String) : String := String.mk (s.toList.map pyLowerChar)

/-- after_cursor_execute listener of app/main.py: op is
statement.strip().split()[0].lower(); subscript [0] of an empty token list
raises IndexError; when op is one of the four DML keywords, that operation's
counter child is incremented and the duration observed in that operation's
histogram child; any other leading keyword changes nothing. -/
def after_cursor_execute (m : DbMetrics) (statement : String) (duration : Nat) :
    Except PyError DbMetrics :=
  match statementTokens statement with
  | [] => Except.error PyError.indexError
  | tok :: _ =>
      if pyLower tok ∈ dmlOps then
        Except.ok ⟨incLabel m.queries_total (pyLower tok),
                   observeLabel m.query_duration (pyLower tok) duration⟩
      else Except.ok m

/-- Label triple of http_requests_total and http_request_duration_seconds:
(method, endpoint path, http_status). -/
abbrev HttpLabels := String × String × Nat

/-- State of the HTTP metric families of app/main.py plus the
inprogress_requests gauge. -/
structure HttpMetrics where
  request_count : List (HttpLabels × Nat)
  request_latency : List (HttpLabels × List Nat)
  in_progress : Int
deriving Repr, DecidableEq

/-- Result of await call_next(request): a response carrying a status code,
or an exception propagating out of the handler chain. -/
inductive Outcome where
  | res (status : Nat)
  | exn
deriving Repr, DecidableEq

/-- The initial HTTP metric state at process start. -/
def httpInit : HttpMetrics := ⟨[], [], 0⟩

/-- metrics_middleware of app/main.py, translated line by line: the
in-progress gauge is incremented, then call_next runs.  On a normal return
the counter and latency histogram are updated and the gauge decremented, and
(some status, state) is returned.  When call_next raises there is no
try/finally in the source, so every line after it is skipped and the
exception propagates: the result is (none, state) with the state as it stood
at the raise. -/
def metrics_middleware (m : HttpMetrics) (method path : String)
    (outcome : Outcome) (latency : Nat) : Option Nat × HttpMetrics :=
  let m1 : HttpMetrics := { m with in_progress := m.in_progress + 1 }
  match outcome with
  | Outcome.exn => (none, m1)
  | Outcome.res status =>
      let m2 : HttpMetrics :=
        { m1 with
          request_count := incLabel m1.request_count (method, path, status),
          request_latency :=
            observeLabel m1.request_latency (method, path, status) latency }
      (some status, { m2 with in_progress := m2.in_progress - 1 })

/-- The three pool gauges db_pool_checked_out_connections,
db_pool_idle_connections, db_pool_waiters. -/
structure PoolGauges where
  checked_out : Nat
  idle : Nat
  waiters : Nat
deriving Repr, DecidableEq

/-- The whole Prometheus registry of app/main.py as far as the service
populates it. -/
structure Registry where
  http : HttpMetrics
  db : DbMetrics
  pool : PoolGauges
deriving Repr, DecidableEq

/-- Bool test that pat is an initial segment of the second list. -/
def startsWithPat : List Char → List Char → Bool
  | [], _ => true
  | _ :: _, [] => false
  | p :: ps, c :: cs => p = c && startsWithPat ps cs

/-- Suffix of the text after the leftmost occurrence of pat, none when pat
does not occur, as re.search scans left to right for a literal marker. -/
def afterFirst (pat : List Char) : List Char → Option (List Char)
  | [] => if pat.isEmpty then some [] else none
  | c :: cs =>
      if startsWithPat pat (c :: cs) then some ((c :: cs).drop pat.length)
      else afterFirst pat cs

/-- Longest leading run of ASCII digits, with the remainder. -/
def takeDigits : List Char → List Char × List Char
  | [] => ([], [])
  | c :: cs =>
      if c.isDigit then
        let p := takeDigits cs
        (c :: p.1, p.2)
      else ([], c :: cs)

/-- Numeric value of a digit run, as int() applied to a regex group. -/
def digitsToNat (ds : List Char) : Nat :=
  ds.foldl (fun n c => 10 * n + (c.toNat - 48)) 0

/-- re.search of the pattern
Connections in use: (\d+).*Free connections: (\d+).*Waiting connections: (\d+)
applied to engine.pool.status() in the metrics endpoint: the three literal
markers are located left to right, each followed by a captured digit run;
none when any marker or digit run is missing.  (The Python regex is greedy
and confines a match to one line; the endpoint only branches on whether a
match exists, and on the single-line status strings SQLAlchemy pools emit
the two formulations agree.) -/
def parsePoolStatus (status : String) : Option (Nat × Nat × Nat) :=
  match afterFirst "Connections in use: ".toList status.toList with
  | none => none
  | some r1 =>
      let p1 := takeDigits r1
      if p1.1.isEmpty then none else
      match afterFirst "Free connections: ".toList p1.2 with
      | none => none
      | some r2 =>
          let p2 := takeDigits r2
          if p2.1.isEmpty then none else
          match afterFirst "Waiting connections: ".toList p2.2 with
          | none => none
          | some r3 =>
              let p3 := takeDigits r3
              if p3.1.isEmpty then none
              else some (digitsToNat p1.1, digitsToNat p2.1, digitsToNat p3.1)

/-- Text exposition produced by generate_latest(): one published value per
child series of each family, plus the current gauge values. -/
structure Exposition where
  http_requests_total : List (HttpLabels × Nat)
  db_queries_total : List (String × Nat)
  inprogress_requests : Int
  db_pool_checked_out : Nat
  db_pool_idle : Nat
  db_pool_waiters : Nat
deriving Repr, DecidableEq

/-- Serialization of the registry state by generate_latest(). -/
def generate_latest (r : Registry) : Exposition :=
  ⟨r.http.request_count, r.db.queries_total, r.http.in_progress,
   r.pool.checked_out, r.pool.idle, r.pool.waiters⟩

/-- GET /metrics (metrics in app/main.py): when the regex matches
engine.pool.status() the three pool gauges are set from the captured groups,
otherwise they are left untouched; either way generate_latest() serializes
the registry and the scrape responds 200.  Returns the response body and the
registry after the scrape. -/
def metricsEndpoint (poolStatus : String) (r : Registry) : Exposition × Registry :=
  let r2 :=
    match parsePoolStatus poolStatus with
    | some (in_use, free, waiting) => { r with pool := ⟨in_use, free, waiting⟩ }
    | none => r
  (generate_latest r2, r2)

/-! Facts about the labelled metric families. -/

theorem countOf_incLabel_self {L : Type} [DecidableEq L] (c : List (L × Nat)) (l : L) :
    countOf (incLabel c l) l = countOf c l + 1 := by
  induction c with
  | nil => simp [incLabel, countOf]
  | cons kv rest ih =>
      by_cases hk : kv.1 = l
      · simp [incLabel, countOf, hk]
      · simp [incLabel, countOf, hk, ih]

theorem countOf_incLabel_ne {L : Type} [DecidableEq L] (c : List (L × Nat)) (l l' : L)
    (h : l' ≠ l) : countOf (incLabel c l) l' = countOf c l' := by
  induction c with
  | nil => simp [incLabel, countOf, h.symm]
  | cons kv rest ih =>
      by_cases hk : kv.1 = l
      · simp [incLabel, countOf, hk, h.symm]
      · simp [incLabel, countOf, hk, ih]

theorem obsOf_observeLabel_self {L : Type} [DecidableEq L] (c : List (L × List Nat))
    (l : L) (d : Nat) : obsOf (observeLabel c l d) l = obsOf c l ++ [d] := by
  induction c with
  | nil => simp [observeLabel, obsOf]
  | cons kv rest ih =>
      by_cases hk : kv.1 = l
      · simp [observeLabel, obsOf, hk]
      · simp [observeLabel, obsOf, hk, ih]

theorem obsOf_observeLabel_ne {L : Type} [DecidableEq L] (c : List (L × List Nat))
    (l l' : L) (d : Nat) (h : l' ≠ l) : obsOf (observeLabel c l d) l' = obsOf c l' := by
  induction c with
  | nil => simp [observeLabel, obsOf, h.symm]
  | cons kv rest ih =>
      by_cases hk : kv.1 = l
      · simp [observeLabel, obsOf, hk, h.symm]
      · simp [observeLabel, obsOf, hk, ih]

theorem keys_incLabel_subset {L : Type} [DecidableEq L] (c : List (L × Nat)) (l x : L)
    (hx : x ∈ (incLabel c l).map Prod.fst) : x = l ∨ x ∈ c.map Prod.fst := by
  induction c with
  | nil => simpa [incLabel] using hx
  | cons kv rest ih =>
      by_cases hk : kv.1 = l
      · simp only [incLabel, if_pos hk, List.map_cons, List.mem_cons] at hx ⊢
        rcases hx with h1 | h2
        · exact Or.inl (h1.trans hk)
        · exact Or.inr (Or.inr h2)
      · simp only [incLabel, if_neg hk, List.map_cons, List.mem_cons] at hx ⊢
        rcases hx with h1 | h2
        · exact Or.inr (Or.inl h1)
        · rcases ih h2 with h3 | h4
          · exact Or.inl h3
          · exact Or.inr (Or.inr h4)

theorem nodup_keys_incLabel {L : Type} [DecidableEq L] (c : List (L × Nat)) (l : L)
    (h : (c.map Prod.fst).Nodup) : ((incLabel c l).map Prod.fst).Nodup := by
  induction c with
  | nil => simp [incLabel]
  | cons kv rest ih =>
      rw [List.map_cons, List.nodup_cons] at h
      by_cases hk : kv.1 = l
      · simp only [incLabel, if_pos hk, List.map_cons, List.nodup_cons]
        exact h
      · simp only [incLabel, if_neg hk, List.map_cons, List.nodup_cons]
        refine ⟨fun hmem => ?_, ih h.2⟩
        rcases keys_incLabel_subset rest l kv.1 hmem with h1 | h2
        · exact hk h1
        · exact h.1 h2

/-- A scrape never modifies the counter families, whatever the pool status
string parses to. -/
theorem metricsEndpoint_counters_eq (s : String) (r : Registry) :
    (metricsEndpoint s r).2.http = r.http ∧ (metricsEndpoint s r).2.db = r.db
    ∧ (metricsEndpoint s r).1.http_requests_total = r.http.request_count
    ∧ (metricsEndpoint s r).1.db_queries_total = r.db.queries_total := by
  cases h : parsePoolStatus s with
  | none => simp [metricsEndpoint, generate_latest, h]
  | some t =>
      obtain ⟨u, f, w⟩ := t
      simp [metricsEndpoint, generate_latest, h]

/-! Claim theorems. -/

/-- C1: the claim states that after any request, whether the wrapped handler
returns normally or raises, the in-progress gauge is decremented back to its
pre-request value.  The translated middleware has no try/finally: when
call_next raises, every line after it — including IN_PROGRESS.dec() — is
skipped, so the gauge stays one above its pre-request value; the
normal-return path does restore it.  Evaluated at the failing input: from
the initial state (gauge 0), an exception outcome leaves the gauge at 1. -/
theorem metrics_middleware_gauge_leak :
    httpInit.in_progress = 0
    ∧ (metrics_middleware httpInit "GET" "/data" Outcome.exn 1).2.in_progress = 1
    ∧ ∀ (m : HttpMetrics) (method path : String) (status latency : Nat),
        (metrics_middleware m method path (Outcome.res status) latency).2.in_progress
          = m.in_progress := by
  refine ⟨rfl, by decide, fun m method path status latency => ?_⟩
  simp [metrics_middleware]

/-- C2: classification in after_cursor_execute.  With op the lower-cased
first whitespace-delimited token of the statement, when op is one of the
four DML keywords exactly that operation's counter grows by one and exactly
that operation's histogram receives the duration, every other operation's
series being untouched; when op is any other keyword the metric state is
returned unchanged. -/
theorem after_cursor_execute_dml (m m2 : DbMetrics) (s : String) (d : Nat)
    (tok : String) (rest : List String)
    (htok : statementTokens s = tok :: rest)
    (hres : after_cursor_execute m s d = Except.ok m2) :
    (pyLower tok ∈ dmlOps →
        countOf m2.queries_total (pyLower tok)
            = countOf m.queries_total (pyLower tok) + 1
        ∧ obsOf m2.query_duration (pyLower tok)
            = obsOf m.query_duration (pyLower tok) ++ [d]
        ∧ ∀ op, op ≠ pyLower tok →
            countOf m2.queries_total op = countOf m.queries_total op
            ∧ obsOf m2.query_duration op = obsOf m.query_duration op)
    ∧ (pyLower tok ∉ dmlOps → m2 = m) := by
  simp only [after_cursor_execute, htok] at hres
  by_cases hop : pyLower tok ∈ dmlOps
  · rw [if_pos hop] at hres
    injection hres with h
    subst h
    refine ⟨fun _ => ⟨countOf_incLabel_self _ _, obsOf_observeLabel_self _ _ _,
      fun op hne => ⟨countOf_incLabel_ne _ _ _ hne, obsOf_observeLabel_ne _ _ _ _ hne⟩⟩,
      fun hn => absurd hop hn⟩
  · rw [if_neg hop] at hres
    injection hres with h
    subst h
    exact ⟨fun hin => absurd hin hop, fun _ => rfl⟩

/-- The classification theorem applied to a concrete SELECT from the empty
registry. -/
theorem after_cursor_execute_dml_witness :
    countOf ([("select", 1)] : List (String × Nat)) (pyLower "SELECT")
      = countOf ([] : List (String × Nat)) (pyLower "SELECT") + 1 := by
  have h := after_cursor_execute_dml ⟨[], []⟩ ⟨[("select", 1)], [("select", [3])]⟩
    "SELECT id FROM user_data" 3 "SELECT" ["id", "FROM", "user_data"]
    (by decide) (by decide)
  exact (h.1 (by decide)).1

/-- C9: an empty or all-whitespace statement tokenizes to the empty list, and
the subscript [0] in after_cursor_execute raises IndexError: the listener
fails loudly instead of silently leaving the query metrics unchanged. -/
theorem after_cursor_execute_empty_raises (m : DbMetrics) (s : String) (d : Nat)
    (h : statementTokens s = []) :
    after_cursor_execute m s d = Except.error PyError.indexError := by
  simp [after_cursor_execute, h]

/-- The IndexError theorem applied to a three-space statement. -/
theorem after_cursor_execute_empty_raises_witness :
    after_cursor_execute ⟨[], []⟩ "   " 0 = Except.error PyError.indexError :=
  after_cursor_execute_empty_raises ⟨[], []⟩ "   " 0 (by decide)

/-- C3: when the pool-status regex fails to match (unexpected format, pool
not initialized), the scrape leaves the registry — in particular the three
pool gauges — unchanged, and still succeeds: the response is the
serialization of the registry as it stood, carrying the previously
published (stale) gauge values. -/
theorem metrics_scrape_stale_gauges (r : Registry) (status : String)
    (h : parsePoolStatus status = none) :
    metricsEndpoint status r = (generate_latest r, r)
    ∧ (metricsEndpoint status r).1.db_pool_checked_out = r.pool.checked_out
    ∧ (metricsEndpoint status r).1.db_pool_idle = r.pool.idle
    ∧ (metricsEndpoint status r).1.db_pool_waiters = r.pool.waiters := by
  simp [metricsEndpoint, generate_latest, h]

/-- The registry as it stands at process start. -/
def regInit : Registry := ⟨httpInit, ⟨[], []⟩, ⟨0, 0, 0⟩⟩

/-- The stale-gauge theorem applied to the status string a SQLAlchemy
QueuePool actually emits, which the translated regex does not match. -/
theorem metrics_scrape_stale_gauges_witness :
    metricsEndpoint
        "Pool size: 5  Connections in use: 0 Current Overflow: -5 Current Checked out connections: 0"
        regInit
      = (generate_latest regInit, regInit) :=
  (metrics_scrape_stale_gauges regInit
    "Pool size: 5  Connections in use: 0 Current Overflow: -5 Current Checked out connections: 0"
    (by decide)).1

/-- C4: consecutive scrapes with no intervening request or query activity
report identical counter values (a scrape mutates only the pool gauges), the
scrape output carries exactly one counter value per label combination of the
registry (its per-family label lists stay duplicate-free), and counter
observation itself preserves that one-series-per-label-combination shape. -/
theorem scrape_idempotent_counters (r : Registry) (s1 s2 : String)
    (h1 : (r.http.request_count.map Prod.fst).Nodup)
    (h2 : (r.db.queries_total.map Prod.fst).Nodup) :
    ((metricsEndpoint s2 (metricsEndpoint s1 r).2).1.http_requests_total
        = (metricsEndpoint s1 r).1.http_requests_total
      ∧ (metricsEndpoint s2 (metricsEndpoint s1 r).2).1.db_queries_total
        = (metricsEndpoint s1 r).1.db_queries_total)
    ∧ (((metricsEndpoint s1 r).1.http_requests_total.map Prod.fst).Nodup
      ∧ ((metricsEndpoint s1 r).1.db_queries_total.map Prod.fst).Nodup)
    ∧ ∀ (c : List (HttpLabels × Nat)) (lab : HttpLabels),
        (c.map Prod.fst).Nodup → ((incLabel c lab).map Prod.fst).Nodup := by
  obtain ⟨hh1, hd1, he1, hq1⟩ := metricsEndpoint_counters_eq s1 r
  obtain ⟨hh2, hd2, he2, hq2⟩ := metricsEndpoint_counters_eq s2 (metricsEndpoint s1 r).2
  refine ⟨⟨?_, ?_⟩, ⟨?_, ?_⟩, fun c lab hc => nodup_keys_incLabel c lab hc⟩
  · rw [he2, hh1, he1]
  · rw [hq2, hd1, hq1]
  · rw [he1]; exact h1
  · rw [hq1]; exact h2

/-- A sample registry: two HTTP series, one DB series. -/
def regSample : Registry :=
  ⟨⟨[(("GET", "/data", 200), 5), (("POST", "/data", 201), 2)], [], 0⟩,
   ⟨[("select", 3)], []⟩, ⟨1, 4, 0⟩⟩

/-- The idempotent-scrape theorem applied to the sample registry. -/
theorem scrape_idempotent_counters_witness :
    (metricsEndpoint "pool" (metricsEndpoint "pool" regSample).2).1.http_requests_total
      = (metricsEndpoint "pool" regSample).1.http_requests_total :=
  ((scrape_idempotent_counters regSample "pool" "pool" (by decide) (by decide)).1).1

/-- C5: PUT and DELETE on an absent id answer 404 with detail
"Item not found" and leave the store unchanged, and DELETE is idempotent on
absence: under primary-key uniqueness of id, a second DELETE of the id just
deleted answers 404 on the store the first DELETE produced, leaving it
unchanged. -/
theorem put_delete_absent_404 (store : List UserData) (i : Nat)
    (data : UserDataCreate)
    (hids : (store.map (fun it => it.id)).Nodup) :
    (firstById store i = none →
        update_data store i data = (HttpResult.err 404 "Item not found", store)
      ∧ delete_data store i = (HttpResult.err 404 "Item not found", store))
    ∧ ∀ (item : UserData) (store2 : List UserData),
        delete_data store i = (HttpResult.ok 200 item, store2) →
        delete_data store2 i = (HttpResult.err 404 "Item not found", store2) := by
  constructor
  · intro habs
    constructor
    · simp [update_data, update_user_data, habs]
    · simp [delete_data, delete_user_data, habs]
  · intro item store2 hdel
    cases hfind : firstById store i with
    | none => simp [delete_data, delete_user_data, hfind] at hdel
    | some it0 =>
        simp only [delete_data, delete_user_data, hfind, Prod.mk.injEq,
          HttpResult.ok.injEq, true_and] at hdel
        obtain ⟨h1, h2⟩ := hdel
        subst h2
        have hfind2 : store.find? (fun it => it.id == i) = some it0 := hfind
        have hmem : it0 ∈ store := List.mem_of_find?_eq_some hfind2
        have hp0 := List.find?_some hfind2
        obtain ⟨a, l1, l2, hl1, hpa, heq, her⟩ :=
          List.exists_of_eraseP (p := fun it => it.id == i) hmem hp0
        rw [heq, List.map_append, List.map_cons] at hids
        have hane : a.id ∉ l2.map (fun it => it.id) := by
          have h5 := (List.nodup_append.mp hids).2.1
          exact (List.nodup_cons.mp h5).1
        have hnone : firstById (store.eraseP (fun it => it.id == i)) i = none := by
          rw [firstById, her]
          refine List.find?_eq_none.mpr (fun x hx hpx => ?_)
          rw [List.mem_append] at hx
          rcases hx with hx1 | hx2
          · exact hl1 x hx1 hpx
          · have hx_id : x.id = i := by simpa using hpx
            have ha_id : a.id = i := by simpa using hpa
            have hmem2 : x.id ∈ l2.map (fun it => it.id) :=
              List.mem_map_of_mem _ hx2
            rw [hx_id, ← ha_id] at hmem2
            exact hane hmem2
        simp [delete_data, delete_user_data, hnone]

/-- The 404 theorem applied concretely: deleting id 1 empties the
one-element store, and the second delete answers 404. -/
theorem put_delete_absent_404_witness :
    delete_data ([] : List UserData) 1
      = (HttpResult.err 404 "Item not found", ([] : List UserData)) :=
  (put_delete_absent_404 [⟨1, "a", "a@x.com", none, 10⟩] 1 ⟨"b", "b@x.com", none⟩
      (by decide)).2
    ⟨1, "a", "a@x.com", none, 10⟩ [] (by decide)

/-- C6: GET /data returns the stored rows in created_at-descending order,
skipping the first skip rows of that order and returning at most limit of
the rest: the result is sorted under createdGe, its length is at most limit,
and every returned row is a stored row; in particular three rows with
timestamps t1 < t2 < t3 come back in the order t3, t2, t1. -/
theorem get_user_data_ordering (store : List UserData) (skip limit : Nat)
    (r1 r2 r3 : UserData)
    (h12 : r1.created_at < r2.created_at) (h23 : r2.created_at < r3.created_at) :
    (List.Sorted createdGe (get_user_data store skip limit)
      ∧ (get_user_data store skip limit).length ≤ limit
      ∧ ∀ x ∈ get_user_data store skip limit, x ∈ store)
    ∧ get_user_data [r1, r2, r3] 0 100 = [r3, r2, r1] := by
  have hsub : List.Sublist (((List.insertionSort createdGe store).drop skip).take limit)
      (List.insertionSort createdGe store) :=
    (List.take_sublist _ _).trans (List.drop_sublist _ _)
  constructor
  · refine ⟨?_, ?_, ?_⟩
    · exact List.Pairwise.sublist hsub (List.sorted_insertionSort createdGe store)
    · simp only [get_user_data, List.length_take]
      exact Nat.min_le_left _ _
    · intro x hx
      exact (List.perm_insertionSort createdGe store).subset (hsub.subset hx)
  · have hn12 : ¬ createdGe r1 r2 := by
      simp only [createdGe, not_le]
      exact h12
    have hn13 : ¬ createdGe r1 r3 := by
      simp only [createdGe, not_le]
      exact Nat.lt_trans h12 h23
    have hn23 : ¬ createdGe r2 r3 := by
      simp only [createdGe, not_le]
      exact h23
    have hins : List.insertionSort createdGe [r1, r2, r3] = [r3, r2, r1] := by
      simp [List.insertionSort, List.orderedInsert, hn12, hn13, hn23]
    show ((List.insertionSort createdGe [r1, r2, r3]).drop 0).take 100 = [r3, r2, r1]
    rw [hins]
    rfl

/-- The ordering theorem applied to three concrete rows with timestamps
1 < 2 < 3. -/
theorem get_user_data_ordering_witness :
    get_user_data [⟨1, "a", "a@x.com", none, 1⟩, ⟨2, "b", "b@x.com", none, 2⟩,
        ⟨3, "c", "c@x.com", none, 3⟩] 0 100
      = [⟨3, "c", "c@x.com", none, 3⟩, ⟨2, "b", "b@x.com", none, 2⟩,
        ⟨1, "a", "a@x.com", none, 1⟩] :=
  (get_user_data_ordering [] 0 0 ⟨1, "a", "a@x.com", none, 1⟩
    ⟨2, "b", "b@x.com", none, 2⟩ ⟨3, "c", "c@x.com", none, 3⟩
    (by decide) (by decide)).2

/-- C7: a successful PUT rewrites exactly the three writable fields: the
updated record keeps the id and the created_at of the stored row and takes
name, email and message from the body, and rows with other ids are carried
into the committed store unchanged. -/
theorem update_preserves_id_created_at (store : List UserData) (i : Nat)
    (data : UserDataCreate) (item old : UserData) (store2 : List UserData)
    (hfind : firstById store i = some old)
    (hupd : update_user_data store i data = some (item, store2)) :
    (item.id = old.id ∧ item.created_at = old.created_at
      ∧ item.name = data.name ∧ item.email = data.email
      ∧ item.message = data.message)
    ∧ ∀ it ∈ store, it.id ≠ i → it ∈ store2 := by
  simp only [update_user_data, hfind, Option.some.injEq, Prod.mk.injEq] at hupd
  obtain ⟨h1, h2⟩ := hupd
  subst h1
  subst h2
  refine ⟨⟨rfl, rfl, rfl, rfl, rfl⟩, ?_⟩
  intro it hit hne
  refine List.mem_map.mpr ⟨it, hit, ?_⟩
  simp [hne]

/-- The frame theorem applied to a concrete one-row store. -/
theorem update_preserves_id_created_at_witness :
    (⟨1, "b", "f@x.com", some "n", 5⟩ : UserData).created_at
      = (⟨1, "a", "e@x.com", some "m", 5⟩ : UserData).created_at :=
  ((update_preserves_id_created_at [⟨1, "a", "e@x.com", some "m", 5⟩] 1
      ⟨"b", "f@x.com", some "n"⟩ ⟨1, "b", "f@x.com", some "n", 5⟩
      ⟨1, "a", "e@x.com", some "m", 5⟩ [⟨1, "b", "f@x.com", some "n", 5⟩]
      (by decide) (by decide)).1).2.1

/-- C10: PUT has full-replace semantics over the writable fields: a body
that omits message validates to message = none, and a successful update
stores none as the record's message — on the returned entity and on every
row of the committed store carrying that id — overwriting any previous
value. -/
theorem update_overwrites_message (store : List UserData) (i : Nat)
    (name email : String) (item : UserData) (store2 : List UserData)
    (hupd : update_user_data store i ⟨name, email, none⟩ = some (item, store2)) :
    item.message = none ∧ ∀ it ∈ store2, it.id = i → it.message = none := by
  cases hfind : firstById store i with
  | none => simp [update_user_data, hfind] at hupd
  | some old =>
      simp only [update_user_data, hfind, Option.some.injEq, Prod.mk.injEq] at hupd
      obtain ⟨h1, h2⟩ := hupd
      subst h1
      subst h2
      refine ⟨rfl, ?_⟩
      intro it hit hid
      obtain ⟨x, hx, hfx⟩ := List.mem_map.mp hit
      by_cases hxid : x.id == i
      · rw [if_pos hxid] at hfx
        rw [← hfx]
        rfl
      · rw [if_neg hxid] at hfx
        subst hfx
        exact absurd (by simp [hid]) hxid

/-- The overwrite theorem applied to a row whose message was some "m". -/
theorem update_overwrites_message_witness :
    (⟨1, "b", "f@x.com", none, 5⟩ : UserData).message = none :=
  (update_overwrites_message [⟨1, "a", "e@x.com", some "m", 5⟩] 1 "b" "f@x.com"
    ⟨1, "b", "f@x.com", none, 5⟩ [⟨1, "b", "f@x.com", none, 5⟩] (by decide)).1

end AppSpec
